import Mathlib

/-!
Verification model of the `astrbot_plugin_chunithm_bot` plugin
(`src/main.py`, `src/resource_manager.py`).

The search engine (`search_song`), the debug scoring variant (`cmd_debug`),
and the catalog load/fetch logic (`load_data`, `load_data_from_api`) are
embedded shallowly.  The external fuzzy matcher `fuzz.token_sort_ratio`
(a third-party library, not part of this repository) is modelled as an
explicit function parameter `fz : String → String → Nat`; every statement
quantifies over it or instantiates it with a concrete table.
-/

/-- One catalog entry, with only the fields the modelled code reads:
`song.get('id', 9999)`, `song.get('title', '')`, `song.get('aliases', [])`.
An absent `id` is modelled by `none`. -/
structure Song where
  id : Option Nat
  title : String
  aliases : List String
deriving DecidableEq

/-- Model of `song.get('id', 9999)`. -/
def idOf (s : Song) : Nat := s.id.getD 9999

/-- Model of Python `str.lower()`: lowercase every character. -/
def lowerStr (s : String) : String := ⟨s.data.map Char.toLower⟩

/-- Model of Python `str.strip()`: drop whitespace from both ends. -/
def trimStr (s : String) : String :=
  ⟨((s.data.dropWhile Char.isWhitespace).reverse.dropWhile Char.isWhitespace).reverse⟩

/-- Model of the list-prefix test used to define Python substring search. -/
def prefAt : List Char → List Char → Bool
  | [], _ => true
  | _ :: _, [] => false
  | a :: as, b :: bs => a == b && prefAt as bs

/-- Model of Python `needle in hay` on character lists. -/
def containsSub (needle : List Char) : List Char → Bool
  | [] => needle.isEmpty
  | c :: t => prefAt needle (c :: t) || containsSub needle t

/-- Model of Python substring containment `needle in hay` on strings. -/
def strIn (needle hay : String) : Bool := containsSub needle.data hay.data

/-- Model of `max(scores)` over a possibly-empty list of natural scores,
with `0` for the empty list (`max(alias_scores) if alias_scores else 0`). -/
def maxNat (l : List Nat) : Nat := l.foldr max 0

/-- Per-song tier score computed in the loop body of `search_song`
(src/main.py lines 124-158).  `kw` is the already-normalized keyword. -/
def songScore (fz : String → String → Nat) (kw : String) (s : Song) : Nat :=
  let title := lowerStr s.title
  let aliases := s.aliases.map lowerStr
  if kw = "c" ++ toString (idOf s) then 100
  else if kw = title then 100
  else if kw ∈ aliases then 95
  else if strIn kw title then 90
  else if aliases.any (fun a => strIn kw a) then 85
  else min (max (fz kw title) (maxNat (aliases.map (fun a => fz kw a)))) 89

/-- Insertion step of a stable descending sort on score-tagged pairs.
An element inserted later in the recursion came earlier in the input list,
so it is placed before any element of equal score. -/
def insertDesc {α : Type} (p : Nat × α) : List (Nat × α) → List (Nat × α)
  | [] => [p]
  | q :: qs => if q.1 ≤ p.1 then p :: q :: qs else q :: insertDesc p qs

/-- Stable sort by score descending; model of
`scored_results.sort(key=lambda x: x[0], reverse=True)` (Python sort is
stable, and `reverse=True` reverses comparisons while keeping stability). -/
def sortDesc {α : Type} : List (Nat × α) → List (Nat × α)
  | [] => []
  | p :: ps => insertDesc p (sortDesc ps)

/-- Model of `search_song` (src/main.py lines 102-176): empty-input guard on
the raw keyword, normalization, id filter, per-song tier score, threshold
filter, stable descending sort, and the keep-only-top-ties loop
(`if score < max_score: break`). -/
def search_song (fz : String → String → Nat) (songs : List Song)
    (keyword : String) (threshold : Nat := 60) : List Song :=
  if keyword = "" ∨ songs = [] then []
  else
    let kw := trimStr (lowerStr keyword)
    let scored := (songs.filter (fun s => decide (idOf s < 8000))).map
      (fun s => (songScore fz kw s, s))
    let passing := scored.filter (fun q => decide (threshold ≤ q.1))
    match sortDesc passing with
    | [] => []
    | q :: qs => ((q :: qs).takeWhile (fun r => decide (q.1 ≤ r.1))).map Prod.snd

/-- The intermediate list of threshold-passing `(score, song)` pairs built by
`search_song` before sorting, in input order. -/
def passingPairs (fz : String → String → Nat) (songs : List Song)
    (keyword : String) (threshold : Nat) : List (Nat × Song) :=
  if keyword = "" ∨ songs = [] then []
  else
    ((songs.filter (fun s => decide (idOf s < 8000))).map
      (fun s => (songScore fz (trimStr (lowerStr keyword)) s, s))).filter
      (fun q => decide (threshold ≤ q.1))

/-- Maximum score of a list of score-tagged pairs (`0` if empty). -/
def maxScores {α : Type} (l : List (Nat × α)) : Nat := maxNat (l.map Prod.fst)

/-- Per-song score computed by the duplicated scoring block inside
`cmd_debug` (src/main.py lines 298-318), transcribed from that code site
separately from `songScore`. -/
def debugScore (fz : String → String → Nat) (kw : String) (s : Song) : Nat :=
  let title := lowerStr s.title
  let aliases := s.aliases.map lowerStr
  if kw = "c" ++ toString (idOf s) then 100
  else if kw = title then 100
  else if kw ∈ aliases then 95
  else if strIn kw title then 90
  else if aliases.any (fun a => strIn kw a) then 85
  else min (max (fz kw title) (maxNat (aliases.map (fun a => fz kw a)))) 89

/-- Model of the scoring pipeline of `cmd_debug` (src/main.py lines 287-326):
first 50 songs in input order, same id skip, duplicated tier scoring, fixed
threshold 60, descending sort, first 10 entries reported. -/
def debugResults (fz : String → String → Nat) (songs : List Song)
    (keyword : String) : List (Nat × Song) :=
  if keyword = "" ∨ songs = [] then []
  else
    let kw := trimStr (lowerStr keyword)
    let dr := (((songs.take 50).filter (fun s => decide (idOf s < 8000))).map
      (fun s => (debugScore fz kw s, s))).filter (fun q => decide (60 ≤ q.1))
    (sortDesc dr).take 10

/-- Spec-side description of the debug variant (spec section 4.2), written
with the search engine's own scorer `songScore`: same tier logic as search,
first 50 songs, threshold 60, top 10 by descending score, no tie-only
truncation. -/
def debugSpec (fz : String → String → Nat) (songs : List Song)
    (keyword : String) : List (Nat × Song) :=
  if keyword = "" ∨ songs = [] then []
  else
    (sortDesc ((((songs.take 50).filter (fun s => decide (idOf s < 8000))).map
      (fun s => (songScore fz (trimStr (lowerStr keyword)) s, s))).filter
      (fun q => decide (60 ≤ q.1)))).take 10

/-- One raw song object from the songs endpoint, before alias merging; the
merge code reads `song['id']` and the fields are kept by the cache. -/
structure RawSong where
  id : Nat
  title : String
deriving DecidableEq

/-- One entry of the alias endpoint payload: `{song_id:int, aliases:[string]}`. -/
structure AliasEntry where
  songId : Nat
  aliases : List String
deriving DecidableEq

/-- One entry of the `versions` array of the songs endpoint payload. -/
structure VersionEntry where
  version : Nat
  vtitle : String
deriving DecidableEq

/-- Parsed body of the songs endpoint: `data.get("songs", [])` defaults to
the empty list, while `data.get("versions")` is `None` when the key is
absent (iterating `None` then raises). -/
structure SongListPayload where
  songs : List RawSong
  versions : Option (List VersionEntry)
deriving DecidableEq

/-- Outcome of the cache-persist step `open(self.data_file, 'w')` followed
by `json.dump`.  Opening with mode 'w' truncates the existing file as soon
as the open succeeds, so the two failure points differ: `failOpen` (the
open itself raises) leaves the prior file content intact, while `failDump`
(`json.dump` raises after the open) leaves the file truncated or partially
written — not the prior content, and not valid JSON. -/
inductive WriteOutcome where
  | ok
  | failOpen
  | failDump
deriving DecidableEq

/-- Environment of one remote refresh attempt: HTTP statuses, parse results
(`none` models a body on which `resp.json()` raises), and the outcome of
the cache write. -/
structure FetchEnv where
  songStatus : Nat
  songJson : Option SongListPayload
  aliasStatus : Nat
  aliasJson : Option (List AliasEntry)
  write : WriteOutcome
deriving DecidableEq

/-- The on-disk cache file: absent, present but unparsable, or parsed with
its `songs` contents (`data.get('songs', [])`). -/
inductive CacheState where
  | missing
  | corrupt
  | cached (songs : List Song)
deriving DecidableEq

/-- The mutable state of the plugin: in-memory song list, `VERSION_MAP`,
and the cache file. -/
structure BotState where
  songs : List Song
  versionMap : List (Nat × String)
  cacheFile : CacheState
deriving DecidableEq

/-- Model of a Python dict update `m[k] = v` on an association list. -/
def insertVM (m : List (Nat × String)) (k : Nat) (v : String) : List (Nat × String) :=
  if m.any (fun p => p.1 == k) then m.map (fun p => if p.1 == k then (k, v) else p)
  else m ++ [(k, v)]

/-- Model of the `for version in versions` loop merging into `VERSION_MAP`. -/
def mergeVersions (m : List (Nat × String)) (vs : List VersionEntry) : List (Nat × String) :=
  vs.foldl (fun acc v => insertVM acc v.version v.vtitle) m

/-- Model of `alias_map.get(song_id, [])` where `alias_map` is the dict
comprehension over the alias payload (later entries overwrite earlier). -/
def lookupA (am : List AliasEntry) (i : Nat) : List String :=
  (am.foldl (fun acc e => if e.songId == i then some e.aliases else acc) none).getD []

/-- A raw song with its merged `aliases` field attached. -/
def mkSong (r : RawSong) (al : List String) : Song :=
  { id := some r.id, title := r.title, aliases := al }

/-- Model of `load_data_from_api` (src/main.py lines 57-100).  Every raising
path lands in the single `except` handler, which logs and sets
`self.songs = []`; `VERSION_MAP` keeps merges already applied before the
raise.  The persist step opens the cache file with mode 'w', which
truncates it before `json.dump` runs: an open failure leaves the prior
file, but a dump failure leaves a truncated or partially written file,
modelled as `CacheState.corrupt` (present but unparsable). -/
def load_data_from_api (st : BotState) (env : FetchEnv) : BotState :=
  if env.songStatus ≠ 200 then { st with songs := [] }
  else
    match env.songJson with
    | none => { st with songs := [] }
    | some payload =>
      match payload.versions with
      | none => { st with songs := [] }
      | some vers =>
        let vm := mergeVersions st.versionMap vers
        if env.aliasStatus = 200 then
          match env.aliasJson with
          | none => { songs := [], versionMap := vm, cacheFile := st.cacheFile }
          | some am =>
            let merged := payload.songs.map (fun r => mkSong r (lookupA am r.id))
            match env.write with
            | WriteOutcome.ok =>
              { songs := merged, versionMap := vm, cacheFile := CacheState.cached merged }
            | WriteOutcome.failOpen =>
              { songs := [], versionMap := vm, cacheFile := st.cacheFile }
            | WriteOutcome.failDump =>
              { songs := [], versionMap := vm, cacheFile := CacheState.corrupt }
        else
          let merged := payload.songs.map (fun r => mkSong r [])
          match env.write with
          | WriteOutcome.ok =>
            { songs := merged, versionMap := vm, cacheFile := CacheState.cached merged }
          | WriteOutcome.failOpen =>
            { songs := [], versionMap := vm, cacheFile := st.cacheFile }
          | WriteOutcome.failDump =>
            { songs := [], versionMap := vm, cacheFile := CacheState.corrupt }

/-- Model of `load_data` (src/main.py lines 39-55).  The returned flag is
`true` exactly when a remote fetch was performed. -/
def load_data (st : BotState) (env : FetchEnv) (forceRefresh : Bool) :
    BotState × Bool :=
  if forceRefresh = true ∨ st.versionMap.length ≤ 1 then (load_data_from_api st env, true)
  else
    match st.cacheFile with
    | CacheState.cached s => ({ st with songs := s }, false)
    | CacheState.missing => (load_data_from_api st env, true)
    | CacheState.corrupt => (load_data_from_api st env, true)

/-- The exact and title-substring tiers of the scorer (tiers 0 to 3, the
branches worth at least 90). -/
def tier03 (kw : String) (s : Song) : Bool :=
  decide (kw = "c" ++ toString (idOf s)) || decide (kw = lowerStr s.title) ||
    decide (kw ∈ s.aliases.map lowerStr) || strIn kw (lowerStr s.title)

/-- All exact and substring tiers of the scorer (tiers 0 to 4); a song on
which this is false falls through to the fuzzy fallback. -/
def tier04 (kw : String) (s : Song) : Bool :=
  tier03 kw s || (s.aliases.map lowerStr).any (fun a => strIn kw a)

/-- A trivial fuzzy oracle used for concrete witnesses. -/
def fz0 : String → String → Nat := fun _ _ => 0

/-- A concrete fuzzy oracle realising a high token-sort ratio for one pair
of similar strings, as `fuzz.token_sort_ratio` does (for example, the real
ratio of "abcdefgx" versus "abcdefgh" is 88). -/
def fzCex : String → String → Nat :=
  fun k t => if k = "abcdefgx" ∧ t = "abcdefgh" then 88 else 0

/-- A minimal concrete song for witnesses. -/
def sW : Song := { id := some 1, title := "a", aliases := [] }

/-- A concrete song matched only by the alias-substring tier (tier 4) for
the keyword "abcdefgx". -/
def songT4 : Song := { id := some 1, title := "zzz", aliases := ["xxABCdefgxyy"] }

/-- A concrete song reaching the fuzzy fallback for the keyword "abcdefgx". -/
def songFz : Song := { id := some 2, title := "abcdefgh", aliases := [] }

/-- A concrete song matched by the exact-title tier for the keyword "q". -/
def songQ : Song := { id := some 3, title := "q", aliases := [] }

/-- A state whose VersionRegistry was never populated (size 1). -/
def stW : BotState :=
  { songs := [], versionMap := [(0, "unknown")], cacheFile := CacheState.missing }

/-- A state with a populated VersionRegistry and a parsable cache file. -/
def stCache : BotState :=
  { songs := [], versionMap := [(0, "unknown"), (1, "v1")],
    cacheFile := CacheState.cached [sW] }

/-- A concrete raw song as returned by the songs endpoint. -/
def rawA : RawSong := { id := 1, title := "A" }

/-- A fetch environment where the songs endpoint succeeds and the alias
endpoint returns a non-success status. -/
def envOkNoAlias : FetchEnv :=
  { songStatus := 200, songJson := some { songs := [rawA], versions := some [] },
    aliasStatus := 500, aliasJson := none, write := WriteOutcome.ok }

/-- A fetch environment where the songs endpoint returns a non-success
status. -/
def envBadStatus : FetchEnv :=
  { songStatus := 500, songJson := none, aliasStatus := 200,
    aliasJson := some [], write := WriteOutcome.ok }

/-- A fetch environment where everything succeeds except the cache write,
which fails during `json.dump`, after `open('w')` truncated the file. -/
def envWriteFail : FetchEnv :=
  { songStatus := 200, songJson := some { songs := [rawA], versions := some [] },
    aliasStatus := 500, aliasJson := none, write := WriteOutcome.failDump }

theorem mem_insertDesc {α : Type} (p q : Nat × α) (l : List (Nat × α)) :
    q ∈ insertDesc p l ↔ q = p ∨ q ∈ l := by
  induction l with
  | nil => simp [insertDesc]
  | cons r rs ih =>
    by_cases h : r.1 ≤ p.1
    · simp only [insertDesc, if_pos h, List.mem_cons]
    · simp only [insertDesc, if_neg h, List.mem_cons, ih]
      tauto

theorem mem_sortDesc {α : Type} (q : Nat × α) (l : List (Nat × α)) :
    q ∈ sortDesc l ↔ q ∈ l := by
  induction l with
  | nil => simp [sortDesc]
  | cons p ps ih => simp [sortDesc, mem_insertDesc, ih]

theorem insertDesc_ne_nil {α : Type} (p : Nat × α) (l : List (Nat × α)) :
    insertDesc p l ≠ [] := by
  cases l with
  | nil => simp [insertDesc]
  | cons r rs =>
    by_cases h : r.1 ≤ p.1 <;> simp [insertDesc, h]

theorem sortDesc_eq_nil_iff {α : Type} (l : List (Nat × α)) :
    sortDesc l = [] ↔ l = [] := by
  cases l with
  | nil => simp [sortDesc]
  | cons p ps => simp [sortDesc, insertDesc_ne_nil]

theorem pairwise_insertDesc {α : Type} (p : Nat × α) (l : List (Nat × α))
    (h : l.Pairwise (fun a b => b.1 ≤ a.1)) :
    (insertDesc p l).Pairwise (fun a b => b.1 ≤ a.1) := by
  induction l with
  | nil => simp [insertDesc]
  | cons r rs ih =>
    rcases List.pairwise_cons.mp h with ⟨hr, hrs⟩
    by_cases hc : r.1 ≤ p.1
    · simp only [insertDesc, if_pos hc]
      refine List.pairwise_cons.mpr ⟨?_, h⟩
      intro x hx
      rcases List.mem_cons.mp hx with rfl | hx'
      · exact hc
      · exact le_trans (hr x hx') hc
    · simp only [insertDesc, if_neg hc]
      refine List.pairwise_cons.mpr ⟨?_, ih hrs⟩
      intro x hx
      rcases (mem_insertDesc p x rs).mp hx with rfl | hx'
      · exact le_of_not_le hc
      · exact hr x hx'

theorem pairwise_sortDesc {α : Type} (l : List (Nat × α)) :
    (sortDesc l).Pairwise (fun a b => b.1 ≤ a.1) := by
  induction l with
  | nil => simp [sortDesc]
  | cons p ps ih => exact pairwise_insertDesc p _ ih

theorem maxNat_cons (a : Nat) (l : List Nat) :
    maxNat (a :: l) = max a (maxNat l) := rfl

theorem le_maxNat {l : List Nat} {a : Nat} (h : a ∈ l) : a ≤ maxNat l := by
  induction l with
  | nil => cases h
  | cons b bs ih =>
    rw [maxNat_cons]
    rcases List.mem_cons.mp h with rfl | h'
    · exact Nat.le_max_left _ _
    · exact le_trans (ih h') (Nat.le_max_right _ _)

theorem maxNat_le {l : List Nat} {m : Nat} (h : ∀ a ∈ l, a ≤ m) : maxNat l ≤ m := by
  induction l with
  | nil => exact Nat.zero_le m
  | cons b bs ih =>
    rw [maxNat_cons]
    exact Nat.max_le.mpr ⟨h b (List.mem_cons_self b bs), ih fun a ha => h a (List.mem_cons_of_mem b ha)⟩

theorem maxScores_cons {α : Type} (p : Nat × α) (ps : List (Nat × α)) :
    maxScores (p :: ps) = max p.1 (maxScores ps) := rfl

theorem exists_maxScores {α : Type} (l : List (Nat × α)) (h : l ≠ []) :
    ∃ q ∈ l, q.1 = maxScores l := by
  induction l with
  | nil => exact absurd rfl h
  | cons p ps ih =>
    by_cases hps : ps = []
    · subst hps
      exact ⟨p, List.mem_cons_self p [], by simp [maxScores_cons, maxScores, maxNat]⟩
    · obtain ⟨q, hq, hqe⟩ := ih hps
      by_cases hc : maxScores ps ≤ p.1
      · refine ⟨p, List.mem_cons_self p ps, ?_⟩
        rw [maxScores_cons, Nat.max_eq_left hc]
      · refine ⟨q, List.mem_cons_of_mem p hq, ?_⟩
        rw [maxScores_cons, Nat.max_eq_right (le_of_not_le hc)]
        exact hqe

theorem takeWhile_insertDesc {α : Type} (m : Nat) (p : Nat × α) (l : List (Nat × α))
    (hub : ∀ q ∈ l, q.1 ≤ m) :
    (insertDesc p l).takeWhile (fun r => decide (m ≤ r.1)) =
      if m ≤ p.1 then p :: l.takeWhile (fun r => decide (m ≤ r.1))
      else l.takeWhile (fun r => decide (m ≤ r.1)) := by
  induction l with
  | nil =>
    by_cases hp : m ≤ p.1 <;> simp [insertDesc, List.takeWhile_cons, hp]
  | cons r rs ih =>
    by_cases hc : r.1 ≤ p.1
    · by_cases hp : m ≤ p.1
      · simp [insertDesc, hc, hp, List.takeWhile_cons]
      · have hr : ¬ m ≤ r.1 := fun hh => hp (le_trans hh hc)
        simp [insertDesc, hc, hp, hr, List.takeWhile_cons]
    · by_cases hp : m ≤ p.1
      · exact absurd (le_trans (hub r (List.mem_cons_self r rs)) hp) hc
      · have ih' := ih fun q hq => hub q (List.mem_cons_of_mem r hq)
        by_cases hmr : m ≤ r.1
        · simp [insertDesc, hc, hp, hmr, List.takeWhile_cons, ih']
        · simp [insertDesc, hc, hp, hmr, List.takeWhile_cons]

theorem takeWhile_sortDesc {α : Type} (m : Nat) (l : List (Nat × α))
    (hub : ∀ q ∈ l, q.1 ≤ m) :
    (sortDesc l).takeWhile (fun r => decide (m ≤ r.1)) =
      l.filter (fun r => decide (m ≤ r.1)) := by
  induction l with
  | nil => simp [sortDesc]
  | cons p ps ih =>
    have hub' : ∀ q ∈ ps, q.1 ≤ m := fun q hq => hub q (List.mem_cons_of_mem p hq)
    have hubs : ∀ q ∈ sortDesc ps, q.1 ≤ m := fun q hq => hub' q ((mem_sortDesc q ps).mp hq)
    show (insertDesc p (sortDesc ps)).takeWhile (fun r => decide (m ≤ r.1)) = _
    rw [takeWhile_insertDesc m p _ hubs, ih hub']
    by_cases hp : m ≤ p.1 <;> simp [hp, List.filter_cons]

theorem sortDesc_head_ub {α : Type} {l : List (Nat × α)} {q : Nat × α}
    {qs : List (Nat × α)} (h : sortDesc l = q :: qs) : ∀ r ∈ l, r.1 ≤ q.1 := by
  intro r hr
  have hmem : r ∈ q :: qs := h ▸ (mem_sortDesc r l).mpr hr
  rcases List.mem_cons.mp hmem with rfl | h'
  · exact le_refl _
  · have hp := pairwise_sortDesc l
    rw [h] at hp
    exact (List.pairwise_cons.mp hp).1 r h'

theorem sortDesc_head_eq_max {α : Type} {l : List (Nat × α)} {q : Nat × α}
    {qs : List (Nat × α)} (h : sortDesc l = q :: qs) : q.1 = maxScores l := by
  have hq : q ∈ l := (mem_sortDesc q l).mp (h ▸ List.mem_cons_self q qs)
  apply le_antisymm
  · exact le_maxNat (List.mem_map_of_mem Prod.fst hq)
  · refine maxNat_le ?_
    intro a ha
    rcases List.mem_map.mp ha with ⟨r, hr, rfl⟩
    exact sortDesc_head_ub h r hr

theorem search_song_eq_filterMax (fz : String → String → Nat) (songs : List Song)
    (keyword : String) (threshold : Nat) :
    search_song fz songs keyword threshold =
      ((passingPairs fz songs keyword threshold).filter
        (fun q => decide (q.1 = maxScores (passingPairs fz songs keyword threshold)))).map
        Prod.snd := by
  by_cases hg : keyword = "" ∨ songs = []
  · simp [search_song, passingPairs, hg]
  · simp only [search_song, passingPairs, if_neg hg]
    split
    · rename_i hS
      rw [(sortDesc_eq_nil_iff _).mp hS]
      simp
    · rename_i q qs hS
      have hub := sortDesc_head_ub hS
      have hmax := sortDesc_head_eq_max hS
      have htw : (q :: qs).takeWhile (fun r => decide (q.1 ≤ r.1)) =
          (((songs.filter fun s => decide (idOf s < 8000)).map
            fun s => (songScore fz (trimStr (lowerStr keyword)) s, s)).filter
            fun r => decide (threshold ≤ r.1)).filter (fun r => decide (q.1 ≤ r.1)) := by
        rw [← hS]
        exact takeWhile_sortDesc q.1 _ hub
      rw [htw]
      congr 1
      refine List.filter_congr ?_
      intro x hx
      rw [decide_eq_decide]
      have hxle : x.1 ≤ q.1 := hub x hx
      rw [← hmax]
      omega

theorem mem_passingPairs {fz : String → String → Nat} {songs : List Song}
    {keyword : String} {threshold : Nat} {q : Nat × Song}
    (h : q ∈ passingPairs fz songs keyword threshold) :
    q.2 ∈ songs ∧ idOf q.2 < 8000 ∧
      q.1 = songScore fz (trimStr (lowerStr keyword)) q.2 ∧ threshold ≤ q.1 := by
  by_cases hg : keyword = "" ∨ songs = []
  · simp [passingPairs, hg] at h
  · simp only [passingPairs, if_neg hg] at h
    rcases List.mem_filter.mp h with ⟨hmem, hth⟩
    rcases List.mem_map.mp hmem with ⟨s, hs, rfl⟩
    rcases List.mem_filter.mp hs with ⟨hsongs, hid⟩
    exact ⟨hsongs, by simpa using hid, rfl, by simpa using hth⟩

theorem containsSub_nil (l : List Char) : containsSub [] l = true := by
  cases l <;> simp [containsSub, prefAt]

theorem strIn_empty (h : String) : strIn "" h = true := by
  show containsSub ("".data) h.data = true
  have hd : "".data = [] := rfl
  rw [hd]
  exact containsSub_nil h.data

theorem songScore_empty_ge (fz : String → String → Nat) (s : Song) :
    90 ≤ songScore fz "" s := by
  simp only [songScore]
  split_ifs with h0 h1 h2 h3 h4 <;> first | omega | simp [strIn_empty] at h3

/-- Claim C1: for every considered song, `search_song`'s scorer assigns a
single integer score by the first matching tier in strict priority order:
100 for a keyword equal to "c" followed by the id, 100 for equality with
the lowercased title, 95 for exact equality with a lowercased alias, 90 for
a substring of the lowercased title, 85 for a substring of some lowercased
alias, and otherwise the maximum fuzzy ratio over title and aliases capped
at 89; later tiers are not evaluated once one matches and scores are not
cumulative. -/
theorem claim1_tier_priority (fz : String → String → Nat) (kw : String) (s : Song) :
    (kw = "c" ++ toString (idOf s) → songScore fz kw s = 100) ∧
    (kw ≠ "c" ++ toString (idOf s) → kw = lowerStr s.title →
      songScore fz kw s = 100) ∧
    (kw ≠ "c" ++ toString (idOf s) → kw ≠ lowerStr s.title →
      kw ∈ s.aliases.map lowerStr → songScore fz kw s = 95) ∧
    (kw ≠ "c" ++ toString (idOf s) → kw ≠ lowerStr s.title →
      kw ∉ s.aliases.map lowerStr → strIn kw (lowerStr s.title) = true →
      songScore fz kw s = 90) ∧
    (kw ≠ "c" ++ toString (idOf s) → kw ≠ lowerStr s.title →
      kw ∉ s.aliases.map lowerStr → strIn kw (lowerStr s.title) = false →
      (s.aliases.map lowerStr).any (fun a => strIn kw a) = true →
      songScore fz kw s = 85) ∧
    (kw ≠ "c" ++ toString (idOf s) → kw ≠ lowerStr s.title →
      kw ∉ s.aliases.map lowerStr → strIn kw (lowerStr s.title) = false →
      (s.aliases.map lowerStr).any (fun a => strIn kw a) = false →
      songScore fz kw s =
        min (max (fz kw (lowerStr s.title))
          (maxNat ((s.aliases.map lowerStr).map (fun a => fz kw a)))) 89) := by
  simp only [songScore]
  split_ifs with h0 h1 h2 h3 h4 <;> refine ⟨?_, ?_, ?_, ?_, ?_, ?_⟩ <;>
    intro _ <;> simp_all

/-- Claim C1 witness: the alias-equality tier fires on a concrete song. -/
theorem claim1_tier_priority_w :
    songScore fz0 "ta" { id := some 1, title := "Title A", aliases := ["TA"] } = 95 :=
  (claim1_tier_priority fz0 "ta" { id := some 1, title := "Title A", aliases := ["TA"] }).2.2.1
    (by decide) (by decide) (by decide)

/-- Claim C2: for every song list, keyword and threshold, `search_song`
returns exactly the threshold-passing songs whose score equals the maximum
score among all threshold-passing songs, each tied song included, each
strictly lower-scored song excluded, in an order stable with respect to
the input order (the filtered `passingPairs` list is in input order). -/
theorem claim2_top_ties (fz : String → String → Nat) (songs : List Song)
    (keyword : String) (threshold : Nat) :
    search_song fz songs keyword threshold =
      ((passingPairs fz songs keyword threshold).filter
        (fun q => decide (q.1 = maxScores (passingPairs fz songs keyword threshold)))).map
        Prod.snd :=
  search_song_eq_filterMax fz songs keyword threshold

/-- Claim C4: no song whose id (defaulting to the sentinel 9999 when the
field is absent) is at least 8000 ever appears in a search result, for any
fuzzy oracle, song list, keyword and threshold. -/
theorem claim4_id_filter (fz : String → String → Nat) (songs : List Song)
    (keyword : String) (threshold : Nat) (s : Song)
    (h : s ∈ search_song fz songs keyword threshold) : idOf s < 8000 := by
  rw [search_song_eq_filterMax] at h
  rcases List.mem_map.mp h with ⟨q, hq, rfl⟩
  exact (mem_passingPairs (List.mem_filter.mp hq).1).2.1

/-- Claim C4 witness: a concrete search containing a song with id 8001
returns a song, and that song has id below 8000. -/
theorem claim4_id_filter_w :
    (⟨some 2, "Title B", []⟩ : Song) ∈
      search_song fz0 [⟨some 8001, "Title A", []⟩, ⟨some 2, "Title B", []⟩] "title" 60 ∧
    idOf ⟨some 2, "Title B", []⟩ < 8000 :=
  ⟨by decide,
    claim4_id_filter fz0 [⟨some 8001, "Title A", []⟩, ⟨some 2, "Title B", []⟩]
      "title" 60 ⟨some 2, "Title B", []⟩ (by decide)⟩

/-- Claim C10: a non-empty keyword made of whitespace only passes the
empty-input guard (which runs on the raw keyword, before trimming),
normalizes to the empty string, and the empty string is a substring of
every lowercased title; hence with threshold 60 and at least one song with
id below 8000 the result is non-empty and every returned song scored at
least 90. -/
theorem claim10_whitespace (fz : String → String → Nat) (songs : List Song)
    (keyword : String) (hk : keyword ≠ "")
    (hn : trimStr (lowerStr keyword) = "")
    (s0 : Song) (hs0 : s0 ∈ songs) (hid : idOf s0 < 8000) :
    search_song fz songs keyword 60 ≠ [] ∧
      ∀ s ∈ search_song fz songs keyword 60,
        90 ≤ songScore fz (trimStr (lowerStr keyword)) s := by
  have hsongs : songs ≠ [] := by
    intro h
    rw [h] at hs0
    cases hs0
  have hguard : ¬(keyword = "" ∨ songs = []) := by tauto
  constructor
  · rw [search_song_eq_filterMax]
    have hP : (songScore fz (trimStr (lowerStr keyword)) s0, s0) ∈
        passingPairs fz songs keyword 60 := by
      simp only [passingPairs, if_neg hguard]
      refine List.mem_filter.mpr ⟨?_, ?_⟩
      · exact List.mem_map.mpr ⟨s0, List.mem_filter.mpr ⟨hs0, by simpa using hid⟩, rfl⟩
      · have h90 := songScore_empty_ge fz s0
        rw [← hn] at h90
        exact decide_eq_true (by omega)
    have hPne : passingPairs fz songs keyword 60 ≠ [] := by
      intro h
      rw [h] at hP
      cases hP
    obtain ⟨q, hq, hqm⟩ := exists_maxScores _ hPne
    intro hres
    have hqf : q ∈ (passingPairs fz songs keyword 60).filter
        (fun r => decide (r.1 = maxScores (passingPairs fz songs keyword 60))) :=
      List.mem_filter.mpr ⟨hq, decide_eq_true hqm⟩
    have hmem := List.mem_map_of_mem Prod.snd hqf
    rw [hres] at hmem
    cases hmem
  · simp only [hn]
    intro s _
    exact songScore_empty_ge fz s

/-- Claim C10 witness: searching with the single-space keyword on a
one-song list returns that song with score at least 90. -/
theorem claim10_whitespace_w :
    search_song fz0 [sW] " " 60 ≠ [] ∧
      ∀ s ∈ search_song fz0 [sW] " " 60,
        90 ≤ songScore fz0 (trimStr (lowerStr " ")) s :=
  claim10_whitespace fz0 [sW] " " (by decide) (by decide) sW
    (List.mem_cons_self sW []) (by decide)

theorem songScore_le_89_of_fuzzy (fz : String → String → Nat) (kw : String)
    (s : Song) (h : tier04 kw s = false) : songScore fz kw s ≤ 89 := by
  simp only [songScore]
  split_ifs with g0 g1 g2 g3 g4 <;>
    first
      | exact Nat.min_le_right _ _
      | simp_all [tier04, tier03]

theorem songScore_ge_85_of_tier04 (fz : String → String → Nat) (kw : String)
    (s : Song) (h : tier04 kw s = true) : 85 ≤ songScore fz kw s := by
  simp only [songScore]
  split_ifs with g0 g1 g2 g3 g4 <;>
    first
      | omega
      | simp_all [tier04, tier03]

theorem songScore_ge_90_of_tier03 (fz : String → String → Nat) (kw : String)
    (s : Song) (h : tier03 kw s = true) : 90 ≤ songScore fz kw s := by
  simp only [songScore]
  split_ifs with g0 g1 g2 g3 g4 <;>
    first
      | omega
      | simp_all [tier04, tier03]

/-- Claim C3 (amended): fuzzy-tier scores are always at most 89, matched
exact/substring tiers always score at least 85, and matched tiers 0 to 3
(exact id, exact title, exact alias, title substring) score at least 90, so
a fuzzy match can never outrank or tie a song matched by tiers 0 to 3; the
fuzzy range (up to 89) does overlap the alias-substring tier score 85, so a
fuzzy match can outrank a song matched only by tier 4. -/
theorem claim3_tier_ranges (fz : String → String → Nat) (kw : String)
    (s sf : Song) :
    (tier04 kw sf = false → songScore fz kw sf ≤ 89) ∧
    (tier04 kw s = true → 85 ≤ songScore fz kw s) ∧
    (tier03 kw s = true → 90 ≤ songScore fz kw s) ∧
    (tier03 kw s = true → tier04 kw sf = false →
      songScore fz kw sf < songScore fz kw s) := by
  refine ⟨songScore_le_89_of_fuzzy fz kw sf, songScore_ge_85_of_tier04 fz kw s,
    songScore_ge_90_of_tier03 fz kw s, ?_⟩
  intro h3 h4
  have ha := songScore_le_89_of_fuzzy fz kw sf h4
  have hb := songScore_ge_90_of_tier03 fz kw s h3
  omega

/-- Claim C3 witness: the bounds of the amended claim at concrete songs. -/
theorem claim3_tier_ranges_w :
    songScore fzCex "abcdefgx" songFz ≤ 89 ∧
    85 ≤ songScore fzCex "abcdefgx" songT4 ∧
    90 ≤ songScore fz0 "q" songQ ∧
    songScore fz0 "q" sW < songScore fz0 "q" songQ :=
  ⟨(claim3_tier_ranges fzCex "abcdefgx" songT4 songFz).1 (by decide),
    (claim3_tier_ranges fzCex "abcdefgx" songT4 songFz).2.1 (by decide),
    (claim3_tier_ranges fz0 "q" songQ sW).2.2.1 (by decide),
    (claim3_tier_ranges fz0 "q" songQ sW).2.2.2 (by decide) (by decide)⟩

/-- Claim C3 counterexample: the fuzzy range and the exact/substring range
do overlap, and a fuzzy match can outrank a tier-4 match in the same
search: with a realizable fuzzy ratio of 88, the fuzzy-tier song scores 88,
the alias-substring song scores 85, and the search returns only the
fuzzy-tier song. -/
theorem claim3_overlap_cex :
    tier04 "abcdefgx" songT4 = true ∧ tier04 "abcdefgx" songFz = false ∧
    songScore fzCex "abcdefgx" songT4 = 85 ∧
    songScore fzCex "abcdefgx" songFz = 88 ∧
    search_song fzCex [songT4, songFz] "abcdefgx" 60 = [songFz] := by decide

theorem debugScore_eq_songScore (fz : String → String → Nat) (kw : String)
    (s : Song) : debugScore fz kw s = songScore fz kw s := rfl

/-- Claim C9: the debug variant computes exactly the same tier score as the
search engine for each of the first 50 songs in input order (still skipping
ids of at least 8000), keeps the ones scoring at least 60, sorts them by
score descending, and reports the first 10 entries without restricting to
ties for the maximum score. -/
theorem claim9_debug_refines (fz : String → String → Nat) (songs : List Song)
    (keyword : String) : debugResults fz songs keyword = debugSpec fz songs keyword := by
  by_cases hg : keyword = "" ∨ songs = []
  · simp [debugResults, debugSpec, hg]
  · simp only [debugResults, debugSpec, if_neg hg, debugScore_eq_songScore]

/-- Claim C5: load performs a remote fetch whenever forceRefresh is set or
the VersionRegistry has size at most 1, regardless of the cache; otherwise
a parsable cache file replaces the in-memory song list with its songs and
no remote call happens; a missing or unparsable cache falls back to a
remote fetch. -/
theorem claim5_load_cases (st : BotState) (env : FetchEnv) (fr : Bool) :
    (fr = true ∨ st.versionMap.length ≤ 1 →
      load_data st env fr = (load_data_from_api st env, true)) ∧
    (¬(fr = true ∨ st.versionMap.length ≤ 1) →
      ∀ s, st.cacheFile = CacheState.cached s →
        load_data st env fr = ({ st with songs := s }, false)) ∧
    (¬(fr = true ∨ st.versionMap.length ≤ 1) →
      st.cacheFile = CacheState.missing ∨ st.cacheFile = CacheState.corrupt →
      load_data st env fr = (load_data_from_api st env, true)) := by
  refine ⟨?_, ?_, ?_⟩
  · intro h
    simp [load_data, h]
  · intro h s hs
    simp [load_data, h, hs]
  · intro h hc
    rcases hc with hc | hc <;> simp [load_data, h, hc]

/-- Claim C5 witness: with a never-populated VersionRegistry the load is a
remote fetch even though forceRefresh is false. -/
theorem claim5_load_cases_w :
    load_data stW envBadStatus false = (load_data_from_api stW envBadStatus, true) :=
  (claim5_load_cases stW envBadStatus false).1 (Or.inr (by decide))

theorem lookupA_eq_nil (am : List AliasEntry) (i : Nat)
    (h : ∀ e ∈ am, e.songId ≠ i) : lookupA am i = [] := by
  induction am with
  | nil => rfl
  | cons e es ih =>
    have he : (e.songId == i) = false := by
      simpa using h e (List.mem_cons_self e es)
    have hrest := ih fun x hx => h x (List.mem_cons_of_mem e hx)
    show ((e :: es).foldl
      (fun acc x => if x.songId == i then some x.aliases else acc) none).getD [] = []
    rw [List.foldl_cons]
    simp only [he, Bool.false_eq_true, if_false]
    exact hrest

/-- Claim C6: with a successful songs fetch and a failing alias endpoint,
the fetch completes normally, attaches an empty alias list to every song,
replaces the in-memory list and persists the cache; and with a successful
alias fetch every song's aliases come from the alias map, defaulting to the
empty list when no alias entry exists for that song's id (the aliases field
is a `List String` by construction, never null). -/
theorem claim6_alias_failure (st : BotState) (env : FetchEnv)
    (p : SongListPayload) (vers : List VersionEntry)
    (h200 : env.songStatus = 200) (hj : env.songJson = some p)
    (hv : p.versions = some vers) (hw : env.write = WriteOutcome.ok) :
    (env.aliasStatus ≠ 200 →
      (load_data_from_api st env).songs = p.songs.map (fun r => mkSong r []) ∧
      (load_data_from_api st env).cacheFile =
        CacheState.cached (p.songs.map (fun r => mkSong r [])) ∧
      ∀ s ∈ (load_data_from_api st env).songs, s.aliases = []) ∧
    (∀ am, env.aliasStatus = 200 → env.aliasJson = some am →
      (load_data_from_api st env).songs =
        p.songs.map (fun r => mkSong r (lookupA am r.id)) ∧
      ∀ r ∈ p.songs, (∀ e ∈ am, e.songId ≠ r.id) → lookupA am r.id = []) := by
  have h1 : ¬(env.songStatus ≠ 200) := by simp [h200]
  constructor
  · intro ha
    have hres : (load_data_from_api st env).songs = p.songs.map (fun r => mkSong r []) ∧
        (load_data_from_api st env).cacheFile =
          CacheState.cached (p.songs.map (fun r => mkSong r [])) := by
      simp [load_data_from_api, h1, hj, hv, ha, hw]
    refine ⟨hres.1, hres.2, ?_⟩
    intro s hs
    rw [hres.1] at hs
    rcases List.mem_map.mp hs with ⟨r, _, rfl⟩
    rfl
  · intro am ha haj
    constructor
    · simp [load_data_from_api, h1, hj, hv, ha, haj, hw]
    · intro r _ hne
      exact lookupA_eq_nil am r.id hne

/-- Claim C6 witness: a concrete fetch with a failing alias endpoint ends
with the merged song in memory and on disk, its aliases empty. -/
theorem claim6_alias_failure_w :
    (load_data_from_api stW envOkNoAlias).songs = [mkSong rawA []] ∧
    (load_data_from_api stW envOkNoAlias).cacheFile = CacheState.cached [mkSong rawA []] ∧
    ∀ s ∈ (load_data_from_api stW envOkNoAlias).songs, s.aliases = [] := by
  have h := (claim6_alias_failure stW envOkNoAlias
      { songs := [rawA], versions := some [] } [] rfl rfl rfl rfl).1 (by decide)
  simpa using h

/-- Claim C7 (amended): any exception during the remote fetch (non-success
songs status, unparsable songs body, missing versions array, unparsable
alias body, or a failing cache write) is caught rather than propagated, a
failure is logged, and the in-memory song list is reset to empty; the cache
file is left untouched by every failure occurring before the persist step
opens the file (including an open failure), but a failure during
`json.dump` itself — after `open('w')` has truncated the file — leaves the
cache file truncated or partially written (unparsable), not untouched. -/
theorem claim7_exception_resets (st : BotState) (env : FetchEnv)
    (h : env.songStatus ≠ 200 ∨ env.songJson = none ∨
      (∃ p, env.songJson = some p ∧ p.versions = none) ∨
      (env.aliasStatus = 200 ∧ env.aliasJson = none) ∨
      env.write ≠ WriteOutcome.ok) :
    (load_data_from_api st env).songs = [] ∧
      ((load_data_from_api st env).cacheFile = st.cacheFile ∨
        ((load_data_from_api st env).cacheFile = CacheState.corrupt ∧
          env.write = WriteOutcome.failDump)) := by
  by_cases h1 : env.songStatus ≠ 200
  · refine ⟨?_, Or.inl ?_⟩ <;> simp [load_data_from_api, h1]
  · cases hj : env.songJson with
    | none => refine ⟨?_, Or.inl ?_⟩ <;> simp [load_data_from_api, h1, hj]
    | some p =>
      cases hv : p.versions with
      | none => refine ⟨?_, Or.inl ?_⟩ <;> simp [load_data_from_api, h1, hj, hv]
      | some vers =>
        have hlate : (env.aliasStatus = 200 ∧ env.aliasJson = none) ∨
            env.write ≠ WriteOutcome.ok := by
          rcases h with h | h | ⟨q, hq, hqv⟩ | h | h
          · exact absurd h h1
          · rw [hj] at h
            cases h
          · rw [hj] at hq
            injection hq with he
            rw [he] at hv
            rw [hv] at hqv
            cases hqv
          · exact Or.inl h
          · exact Or.inr h
        by_cases ha : env.aliasStatus = 200
        · cases haj : env.aliasJson with
          | none =>
            refine ⟨?_, Or.inl ?_⟩ <;> simp [load_data_from_api, h1, hj, hv, ha, haj]
          | some am =>
            have hw : env.write ≠ WriteOutcome.ok := by
              rcases hlate with ⟨_, hn⟩ | hw
              · rw [haj] at hn
                cases hn
              · exact hw
            cases hwv : env.write with
            | ok => exact absurd hwv hw
            | failOpen =>
              refine ⟨?_, Or.inl ?_⟩ <;>
                simp [load_data_from_api, h1, hj, hv, ha, haj, hwv]
            | failDump =>
              refine ⟨?_, Or.inr ⟨?_, rfl⟩⟩ <;>
                simp [load_data_from_api, h1, hj, hv, ha, haj, hwv]
        · have hw : env.write ≠ WriteOutcome.ok := by
            rcases hlate with ⟨h2, _⟩ | hw
            · exact absurd h2 ha
            · exact hw
          cases hwv : env.write with
          | ok => exact absurd hwv hw
          | failOpen =>
            refine ⟨?_, Or.inl ?_⟩ <;> simp [load_data_from_api, h1, hj, hv, ha, hwv]
          | failDump =>
            refine ⟨?_, Or.inr ⟨?_, rfl⟩⟩ <;> simp [load_data_from_api, h1, hj, hv, ha, hwv]

/-- Claim C7 witness: a non-success songs status resets memory and keeps
the cache file. -/
theorem claim7_exception_resets_w :
    (load_data_from_api stW envBadStatus).songs = [] ∧
      ((load_data_from_api stW envBadStatus).cacheFile = stW.cacheFile ∨
        ((load_data_from_api stW envBadStatus).cacheFile = CacheState.corrupt ∧
          envBadStatus.write = WriteOutcome.failDump)) :=
  claim7_exception_resets stW envBadStatus (Or.inl (by decide))

/-- Claim C7 counterexample: a fetch over a state holding a previously
cached song list, failing only during `json.dump`, ends with empty memory
and a cache file that is no longer the prior content — `open('w')` had
already truncated it — contradicting the claimed untouched cache. -/
theorem claim7_cache_destroyed_cex :
    stCache.cacheFile = CacheState.cached [sW] ∧
      (load_data_from_api stCache envWriteFail).songs = [] ∧
      (load_data_from_api stCache envWriteFail).cacheFile = CacheState.corrupt ∧
      (load_data_from_api stCache envWriteFail).cacheFile ≠ stCache.cacheFile := by decide

/-- Claim C8 (amended): when persisting the cache fails after the in-memory
song list has already been replaced with the freshly fetched merged list,
the exception is caught and logged and the in-memory song list is reset to
the empty list — memory does not keep the newly fetched songs. -/
theorem claim8_write_failure (st : BotState) (env : FetchEnv)
    (p : SongListPayload) (vers : List VersionEntry)
    (h200 : env.songStatus = 200) (hj : env.songJson = some p)
    (hv : p.versions = some vers)
    (ha : env.aliasStatus = 200 → env.aliasJson ≠ none)
    (hw : env.write ≠ WriteOutcome.ok) :
    (load_data_from_api st env).songs = [] := by
  have h1 : ¬(env.songStatus ≠ 200) := by simp [h200]
  by_cases hal : env.aliasStatus = 200
  · cases haj : env.aliasJson with
    | none => exact absurd haj (ha hal)
    | some am =>
      cases hwv : env.write with
      | ok => exact absurd hwv hw
      | failOpen => simp [load_data_from_api, h1, hj, hv, hal, haj, hwv]
      | failDump => simp [load_data_from_api, h1, hj, hv, hal, haj, hwv]
  · cases hwv : env.write with
    | ok => exact absurd hwv hw
    | failOpen => simp [load_data_from_api, h1, hj, hv, hal, hwv]
    | failDump => simp [load_data_from_api, h1, hj, hv, hal, hwv]

/-- Claim C8 witness: a concrete successful fetch with a failing write ends
with empty memory. -/
theorem claim8_write_failure_w :
    (load_data_from_api stW envWriteFail).songs = [] :=
  claim8_write_failure stW envWriteFail { songs := [rawA], versions := some [] } []
    rfl rfl rfl (by decide) (by decide)

/-- Claim C8 counterexample: after a fetch whose only failure is the cache
write, memory is empty rather than holding the freshly fetched song list,
contradicting the claimed no-rollback behavior. -/
theorem claim8_no_rollback_cex :
    (load_data_from_api stW envWriteFail).songs = [] ∧
      (load_data_from_api stW envWriteFail).songs ≠ [mkSong rawA []] := by decide

